import Mathlib

/-!
Shallow embedding of the indicator-computation core of the `market`
repository (files `backend/app/utils/indicators.py`,
`backend/app/utils/data_processor.py`,
`backend/app/utils/technical_analysis.py`).

Conventions of the embedding:
* a pandas float cell is a `ℚ`; a NaN cell is `none` in an `Option ℚ`
  column (pandas comparisons with NaN are `False`, modelled explicitly);
* a pandas Series of closes is a `List ℚ`; a DataFrame is a structure of
  typed rows plus the dynamically added extra columns, so that in-place
  column assignment (`df['min'] = ...`) is visible as a changed frame;
* `rolling(window=w).mean()` keeps the pandas default
  `min_periods = w`: the first `w - 1` entries are `none`;
* a call that raises (`.iloc[-1]` on an empty frame) returns `none`
  at the outermost `Option`.
-/

set_option linter.unusedVariables false

/-- The three-state signal tier used by the classifier
(`'good' / 'warning' / 'bad'` strings in the source). -/
inductive Tier where
  | good : Tier
  | warning : Tier
  | bad : Tier
deriving DecidableEq, Repr

/-- One cleaned OHLCV bar; `ts` stands for the datetime index value
(modelled as a natural number, only its ordering and equality are used). -/
structure Bar where
  ts : ℕ
  open_ : ℚ
  high : ℚ
  low : ℚ
  close : ℚ
  volume : ℚ
deriving DecidableEq, Repr

/-- A raw bar as fetched: any cell may be missing (NaN), `none` here. -/
structure RawBar where
  ts : ℕ
  open_ : Option ℚ
  high : Option ℚ
  low : Option ℚ
  close : Option ℚ
  volume : Option ℚ
deriving DecidableEq, Repr

/-- A DataFrame: the typed OHLCV rows plus the extra float columns the
code adds in place (`Returns`, `min`, `max`), each a name with a column
of optional values (NaN = `none`). -/
structure DataFrame where
  rows : List Bar
  extra : List (String × List (Option ℚ))
deriving DecidableEq, Repr

/-- `xs.rolling(window=w).mean()` with the pandas default
`min_periods = w`: entry `i` is the mean of the `w` values ending at `i`,
`none` while the window is not yet full. -/
def rollingMean (w : ℕ) (xs : List ℚ) : List (Option ℚ) :=
  (List.range xs.length).map (fun i =>
    if w ≤ i + 1 then some (((xs.drop (i + 1 - w)).take w).sum / (w : ℚ))
    else none)

/-- `xs.rolling(window=w, center=True).min()`: pandas centers a fixed
window by the offset `(w - 1) / 2`, so the entry labelled `i` aggregates
the trailing window ending at `j = i + (w - 1) / 2`, and is `none`
unless that window fits entirely inside the series. -/
def rollingMinCentered (w : ℕ) (xs : List ℚ) : List (Option ℚ) :=
  (List.range xs.length).map (fun i =>
    let j := i + (w - 1) / 2
    if w ≤ j + 1 ∧ j < xs.length then ((xs.drop (j + 1 - w)).take w).min?
    else none)

/-- `xs.rolling(window=w, center=True).max()`, see `rollingMinCentered`. -/
def rollingMaxCentered (w : ℕ) (xs : List ℚ) : List (Option ℚ) :=
  (List.range xs.length).map (fun i =>
    let j := i + (w - 1) / 2
    if w ≤ j + 1 ∧ j < xs.length then ((xs.drop (j + 1 - w)).take w).max?
    else none)

/-- `pandas.unique`: the distinct values in order of first occurrence. -/
def uniqueL {α : Type} [DecidableEq α] (xs : List α) : List α :=
  xs.foldl (fun acc x => if x ∈ acc then acc else acc ++ [x]) []

/-- Python `sorted` on floats: ascending order. -/
def sortedQ (xs : List ℚ) : List ℚ :=
  List.insertionSort (fun a b => a ≤ b) xs

/-- A raw bar survives `dropna()` exactly when every cell is present. -/
def toBar (r : RawBar) : Option Bar :=
  match r.open_, r.high, r.low, r.close, r.volume with
  | some o, some h, some l, some c, some v =>
      some { ts := r.ts, open_ := o, high := h, low := l, close := c, volume := v }
  | _, _, _, _, _ => none

/-- `clean_stock_data` (`data_processor.py`): `df.dropna()` (drop every
row with a missing cell), convert the index to datetime (identity here),
then `df.sort_index()`. It returns the cleaned frame unconditionally;
no emptiness check and no error path exist in the source. -/
def clean_stock_data (raw : List RawBar) : List Bar :=
  List.insertionSort (fun a b => a.ts ≤ b.ts) (raw.filterMap toBar)

/-! ### `indicators.py`: RSI, death cross, MACD -/

/-- `delta.where(delta > 0, 0)` applied to `data['Close'].diff()`:
the leading NaN of `diff()` fails the `> 0` test and is replaced by `0`,
every later entry is the positive part of the one-step difference. -/
def gains : List ℚ → List ℚ
  | [] => []
  | c :: cs => 0 :: List.zipWith (fun p q => if 0 < q - p then q - p else 0) (c :: cs) cs

/-- `(-delta.where(delta < 0, 0))`: the negative part of the difference,
with the leading NaN likewise replaced by `0`. -/
def losses : List ℚ → List ℚ
  | [] => []
  | c :: cs => 0 :: List.zipWith (fun p q => if q - p < 0 then p - q else 0) (c :: cs) cs

/-- One entry of `100 - 100 / (1 + gain / loss)` under float semantics:
both averages NaN-free but window incomplete gives NaN (`none`);
`loss = 0, gain = 0` gives `rs = 0/0 = NaN`, so RSI is NaN;
`loss = 0, gain ≠ 0` gives `rs = ±inf`, so RSI is exactly `100`;
otherwise the arithmetic is finite and exact. -/
def rsiPoint (g? l? : Option ℚ) : Option ℚ :=
  match g?, l? with
  | some g, some l =>
      if l = 0 then (if g = 0 then none else some 100)
      else some (100 - 100 / (1 + g / l))
  | _, _ => none

/-- The RSI(14) series of `calculate_rsi`: rolling 14-bar simple means of
gains and losses combined pointwise. -/
def rsiSeries (closes : List ℚ) : List (Option ℚ) :=
  List.zipWith rsiPoint (rollingMean 14 (gains closes)) (rollingMean 14 (losses closes))

/-- The last entry of the rolling average gain (`gain.rolling(14).mean()`
at `iloc[-1]`); outer `none` when the series is empty. -/
def avgGainLast (closes : List ℚ) : Option (Option ℚ) :=
  (rollingMean 14 (gains closes)).getLast?

/-- The last entry of the rolling average loss. -/
def avgLossLast (closes : List ℚ) : Option (Option ℚ) :=
  (rollingMean 14 (losses closes)).getLast?

/-- `current_rsi > 70` under float semantics: false when NaN. -/
def optGtB (v : Option ℚ) (c : ℚ) : Bool :=
  match v with
  | some x => decide (c < x)
  | none => false

/-- `current_rsi < 30` under float semantics: false when NaN. -/
def optLtB (v : Option ℚ) (c : ℚ) : Bool :=
  match v with
  | some x => decide (x < c)
  | none => false

/-- The threshold cascade at the end of `calculate_rsi`. -/
def classifyRsi (v : Option ℚ) : Option ℚ × Tier × String :=
  if optGtB v 70 then
    (v, Tier.bad, "RSI is overbought (>70), suggesting a potential sell signal.")
  else if optLtB v 30 then
    (v, Tier.good, "RSI is oversold (<30), suggesting a potential buy signal.")
  else
    (v, Tier.warning, "RSI is in neutral territory (30-70).")

/-- `calculate_rsi` (`indicators.py`): build the RSI series, take
`rsi.iloc[-1]` (raises on an empty frame: outer `none`), and classify. -/
def calculate_rsi (closes : List ℚ) : Option (Option ℚ × Tier × String) :=
  match (rsiSeries closes).getLast? with
  | none => none
  | some v => some (classifyRsi v)

/-- `ma50.iloc[-1] < ma200.iloc[-1]` under float semantics:
a comparison with NaN is false. -/
def optLtOptB (a b : Option ℚ) : Bool :=
  match a, b with
  | some x, some y => decide (x < y)
  | _, _ => false

/-- `detect_death_cross` (`indicators.py`): compare the last entries of
the 50- and 200-bar rolling means of close; outer `none` models the
`iloc[-1]` raise on an empty frame. -/
def detect_death_cross (closes : List ℚ) : Option (Bool × Tier × String) :=
  match (rollingMean 50 closes).getLast?, (rollingMean 200 closes).getLast? with
  | some a, some b =>
      some (if optLtOptB a b then
              (true, Tier.bad,
               "Death Cross detected (50-day MA below 200-day MA), indicating a bearish trend.")
            else
              (false, Tier.good,
               "No Death Cross detected (50-day MA above 200-day MA), indicating a bullish trend."))
  | _, _ => none

/-- Tail of `ewm(adjust=False).mean()`: `y_t = (1 - a) * y_(t-1) + a * x_t`. -/
def emaAux (a : ℚ) (y : ℚ) : List ℚ → List ℚ
  | [] => []
  | x :: xs => ((1 - a) * y + a * x) :: emaAux a ((1 - a) * y + a * x) xs

/-- `xs.ewm(span=s, adjust=False).mean()` with `a = 2 / (s + 1)`:
seeded with the first value, recursive thereafter, defined everywhere. -/
def ema (a : ℚ) : List ℚ → List ℚ
  | [] => []
  | x :: xs => x :: emaAux a x xs

/-- The sign cascade at the end of `calculate_macd`. -/
def classifyMacd (m : ℚ) : ℚ × Tier × String :=
  if 0 < m then
    (m, Tier.good, "MACD is above signal line, indicating bullish momentum.")
  else if m < 0 then
    (m, Tier.bad, "MACD is below signal line, indicating bearish momentum.")
  else
    (m, Tier.warning, "MACD is at signal line, indicating neutral momentum.")

/-- The MACD line `EMA(12) - EMA(26)` of close (`span` 12 and 26 give
smoothing factors `2/13` and `2/27`). -/
def macdLine (closes : List ℚ) : List ℚ :=
  List.zipWith (fun a b => a - b) (ema (2 / 13) closes) (ema (2 / 27) closes)

/-- The signal line: `EMA(9)` of the MACD line (smoothing factor `1/5`). -/
def signalLine (closes : List ℚ) : List ℚ :=
  ema (2 / 10) (macdLine closes)

/-- `calculate_macd` (`indicators.py`): `macd.iloc[-1] - signal.iloc[-1]`
classified by sign; outer `none` models the raise on an empty frame. -/
def calculate_macd (closes : List ℚ) : Option (ℚ × Tier × String) :=
  match (macdLine closes).getLast?, (signalLine closes).getLast? with
  | some m, some s => some (classifyMacd (m - s))
  | _, _ => none

/-! ### `data_processor.py`: returns, statistics, outliers, resampling -/

/-- `close.pct_change()`: leading NaN, then `c_t / c_(t-1) - 1`.
(Prices are positive in the data model, so the divisor is nonzero
wherever the claims evaluate it.) -/
def pct_change : List ℚ → List (Option ℚ)
  | [] => []
  | c :: cs => none :: List.zipWith (fun p q => some (q / p - 1)) (c :: cs) cs

/-- Mean of a plain float column; pandas gives NaN on an empty column. -/
def meanCol (xs : List ℚ) : Option ℚ :=
  if xs.isEmpty then none else some (xs.sum / (xs.length : ℚ))

/-- Mean with `skipna` (pandas default): drop the NaN cells first. -/
def meanColO (xs : List (Option ℚ)) : Option ℚ :=
  meanCol (xs.filterMap id)

/-- The mean used inside `detect_outliers` once at least two values
exist (so the division is meaningful). -/
def meanQ (xs : List ℚ) : ℚ :=
  xs.sum / (xs.length : ℚ)

/-- `Series.var()` with the pandas default `ddof = 1` (sample variance):
NaN unless at least two values exist. `Series.std()` is its square
root; the embedding carries the exact square, and every comparison
against the standard deviation below is phrased on squares. -/
def sampleVar (xs : List ℚ) : Option ℚ :=
  if 2 ≤ xs.length then
    some ((xs.map (fun x => (x - meanQ xs) ^ 2)).sum / ((xs.length : ℚ) - 1))
  else none

/-- Sample variance with `skipna`: drop the NaN cells first. -/
def sampleVarO (xs : List (Option ℚ)) : Option ℚ :=
  sampleVar (xs.filterMap id)

/-- The statistics dictionary built by `prepare_data_for_analysis`.
`var_return` is the exact square of the `std_dev` entry (see
`sampleVar`); `min_price`/`max_price`/`volume_avg` are NaN on an empty
column. -/
structure StatsD where
  mean_return : Option ℚ
  var_return : Option ℚ
  min_price : Option ℚ
  max_price : Option ℚ
  current_price : ℚ
  volume_avg : Option ℚ
deriving DecidableEq, Repr

/-- `prepare_data_for_analysis` (`data_processor.py`): assigns
`df['Returns'] = df['Close'].pct_change()` on the caller's frame, then
builds the statistics dictionary. `df['Close'].iloc[-1]` raises on an
empty frame: outer `none`. -/
def prepare_data_for_analysis (df : DataFrame) : Option (DataFrame × StatsD) :=
  let rets := pct_change (df.rows.map (fun b => b.close))
  let df2 : DataFrame := { df with extra := df.extra ++ [("Returns", rets)] }
  match (df.rows.map (fun b => b.close)).getLast? with
  | none => none
  | some c =>
      some (df2,
        { mean_return := meanColO rets
          var_return := sampleVarO rets
          min_price := (df.rows.map (fun b => b.low)).min?
          max_price := (df.rows.map (fun b => b.high)).max?
          current_price := c
          volume_avg := meanCol (df.rows.map (fun b => b.volume)) })

/-- `z > threshold` for `z = |x - mean| / std`, phrased exactly on
squares: with `std` NaN (fewer than two rows) or `std = 0` every float
comparison is false (`0 / 0 = NaN`); with `std > 0` and a non-negative
threshold, `z > t` iff `(x - mean) ^ 2 > t ^ 2 * var`; a negative
threshold is below every non-NaN `z`. -/
def zExceeds (mean var t x : ℚ) : Bool :=
  decide (0 < var) && (decide (t < 0) || decide (t ^ 2 * var < (x - mean) ^ 2))

/-- `detect_outliers` (`data_processor.py`) for a column selected by a
projection of the typed row (every valid column is such a projection):
the timestamps of the rows whose absolute z-score exceeds the
threshold. When the sample variance is NaN (`none`, fewer than two
rows) every z-score is NaN and nothing is selected. -/
def detect_outliers (df : DataFrame) (col : Bar → ℚ) (threshold : ℚ) : List ℕ :=
  let vals := df.rows.map col
  match sampleVar vals with
  | none => []
  | some v =>
      (df.rows.filter (fun r => zExceeds (meanQ vals) v threshold (col r))).map
        (fun r => r.ts)

/-! ### `technical_analysis.py`: support and resistance -/

/-- The dictionary returned by `calculate_support_resistance`. -/
structure LevelSet where
  support : List ℚ
  resistance : List ℚ
deriving DecidableEq, Repr

/-- `df[df['Low'] == df['min']]['Low']`: the column values at the rows
where the value equals the (possibly NaN) rolling extremum; a NaN cell
compares unequal to everything. -/
def candidateVals (xs : List ℚ) (extremum : List (Option ℚ)) : List ℚ :=
  ((xs.zip extremum).filter (fun p => decide (p.2 = some p.1))).map (fun p => p.1)

/-- `calculate_support_resistance` (`technical_analysis.py`): writes the
`min`/`max` columns onto the caller's frame, collects the unique lows
equal to the centered rolling minimum (and highs / maximum), and slices
the ascending sort: `sorted(support_levels)[-3:]` and
`sorted(resistance_levels)[:3]`. Returns the level set together with
the caller's frame as the call leaves it. -/
def calculate_support_resistance (df : DataFrame) (window : ℕ) : LevelSet × DataFrame :=
  let lows := df.rows.map (fun b => b.low)
  let highs := df.rows.map (fun b => b.high)
  let minCol := rollingMinCentered window lows
  let maxCol := rollingMaxCentered window highs
  let support_levels := uniqueL (candidateVals lows minCol)
  let resistance_levels := uniqueL (candidateVals highs maxCol)
  let s := sortedQ support_levels
  let r := sortedQ resistance_levels
  ({ support := s.drop (s.length - 3), resistance := r.take 3 },
   { df with extra := df.extra ++ [("min", minCol), ("max", maxCol)] })

/-! ### `resample_data` -/

/-- A row of the frame `resample_data` receives: OHLCV plus the
`Returns` column added by `prepare_data_for_analysis` (NaN on the first
row, hence optional). -/
structure RBar where
  ts : ℕ
  open_ : ℚ
  high : ℚ
  low : ℚ
  close : ℚ
  volume : ℚ
  returns : Option ℚ
deriving DecidableEq, Repr

/-- One aggregated output row of `resample_data`. -/
structure AggBar where
  open_ : ℚ
  high : ℚ
  low : ℚ
  close : ℚ
  volume : ℚ
  returns : ℚ
deriving DecidableEq, Repr

/-- The rows falling into the calendar bucket `k`, in input order. -/
def groupOf (bucket : ℕ → ℕ) (rows : List RBar) (k : ℕ) : List RBar :=
  rows.filter (fun r => decide (bucket r.ts = k))

/-- The aggregation dictionary of `resample_data` applied to one
non-empty bucket `r0 :: rs`: `first / max / min / last / sum / sum`
(the `Returns` sum skips NaN, the pandas default). -/
def aggGroup (r0 : RBar) (rs : List RBar) : AggBar :=
  { open_ := r0.open_
    high := (rs.map (fun r => r.high)).foldl max r0.high
    low := (rs.map (fun r => r.low)).foldl min r0.low
    close := (rs.map (fun r => r.close)).getLastD r0.close
    volume := r0.volume + (rs.map (fun r => r.volume)).sum
    returns := ((r0 :: rs).filterMap (fun r => r.returns)).sum }

/-- `resample_data` (`data_processor.py`): group the rows by the
calendar bucket of their timestamp (`W`/`M` grouping abstracted as a
bucket map on timestamps) and aggregate each occupied bucket with
`first / max / min / last / sum / sum`. Pandas also emits all-NaN rows
for empty buckets inside the covered range; no claim touches those and
the embedding keeps only occupied buckets. -/
def resample_data (bucket : ℕ → ℕ) (rows : List RBar) : List (ℕ × AggBar) :=
  (uniqueL (rows.map (fun r => bucket r.ts))).filterMap (fun k =>
    match groupOf bucket rows k with
    | [] => none
    | r0 :: rs => some (k, aggGroup r0 rs))

/-! ### Helper lemmas -/

theorem getLast?_map_range {α : Type} (f : ℕ → α) (n : ℕ) :
    ((List.range (n + 1)).map f).getLast? = some (f n) := by
  rw [List.getLast?_map, List.range_succ, List.getLast?_concat, Option.map_some']

theorem exists_getLast?_of_ne_nil {α : Type} {l : List α} (h : l ≠ []) :
    ∃ a, l.getLast? = some a := by
  have := List.getLast?_isSome.mpr h
  exact Option.isSome_iff_exists.mp this

theorem rollingMean_length (w : ℕ) (xs : List ℚ) :
    (rollingMean w xs).length = xs.length := by
  simp [rollingMean]

theorem rollingMean_getLast (w : ℕ) (xs : List ℚ) (h : xs ≠ []) :
    (rollingMean w xs).getLast? =
      some (if w ≤ xs.length
            then some (((xs.drop (xs.length - w)).take w).sum / (w : ℚ))
            else none) := by
  obtain ⟨m, hm⟩ : ∃ m, xs.length = m + 1 := by
    cases xs with
    | nil => exact absurd rfl h
    | cons a l => exact ⟨l.length, rfl⟩
  unfold rollingMean
  rw [hm, getLast?_map_range]

theorem zipWith_getLast?_some {α β γ : Type} (f : α → β → γ) :
    ∀ (as : List α) (bs : List β), as.length = bs.length →
      ∀ a b, as.getLast? = some a → bs.getLast? = some b →
        (List.zipWith f as bs).getLast? = some (f a b) := by
  intro as
  induction as with
  | nil => intro bs h a b ha hb; simp at ha
  | cons x as ih =>
    intro bs h a b ha hb
    cases bs with
    | nil => simp at h
    | cons y bs =>
      cases as with
      | nil =>
        cases bs with
        | nil =>
          simp only [List.getLast?_singleton, Option.some.injEq] at ha hb
          simp [List.zipWith_cons_cons, ha, hb]
        | cons y2 bs2 => simp at h
      | cons x2 as2 =>
        cases bs with
        | nil => simp at h
        | cons y2 bs2 =>
          have hlen : (x2 :: as2).length = (y2 :: bs2).length := by
            simpa using h
          rw [List.getLast?_cons_cons] at ha
          rw [List.getLast?_cons_cons] at hb
          rw [List.zipWith_cons_cons, List.zipWith_cons_cons, List.getLast?_cons_cons]
          have := ih (y2 :: bs2) hlen a b ha hb
          rwa [List.zipWith_cons_cons] at this

theorem mem_foldl_uniq {α : Type} [DecidableEq α] (l : List α) :
    ∀ (acc : List α) (a : α),
      a ∈ l.foldl (fun acc x => if x ∈ acc then acc else acc ++ [x]) acc ↔
        a ∈ acc ∨ a ∈ l := by
  induction l with
  | nil => simp
  | cons x xs ih =>
    intro acc a
    simp only [List.foldl_cons]
    by_cases hx : x ∈ acc
    · rw [if_pos hx, ih]
      simp only [List.mem_cons]
      constructor
      · rintro (h | h)
        · exact Or.inl h
        · exact Or.inr (Or.inr h)
      · rintro (h | rfl | h)
        · exact Or.inl h
        · exact Or.inl hx
        · exact Or.inr h
    · rw [if_neg hx, ih]
      simp only [List.mem_append, List.mem_singleton, List.mem_cons]
      tauto

theorem mem_uniqueL {α : Type} [DecidableEq α] {l : List α} {a : α} :
    a ∈ uniqueL l ↔ a ∈ l := by
  unfold uniqueL
  rw [mem_foldl_uniq]
  simp

theorem gains_length (closes : List ℚ) : (gains closes).length = closes.length := by
  cases closes with
  | nil => rfl
  | cons c cs => simp [gains]

theorem losses_length (closes : List ℚ) : (losses closes).length = closes.length := by
  cases closes with
  | nil => rfl
  | cons c cs => simp [losses]

theorem zipWith_diff_nonneg (g : ℚ → ℚ → ℚ) (hg : ∀ p q, 0 ≤ g p q) :
    ∀ (l1 l2 : List ℚ), ∀ x ∈ List.zipWith g l1 l2, 0 ≤ x := by
  intro l1
  induction l1 with
  | nil => simp
  | cons a l1 ih =>
    intro l2 x hx
    cases l2 with
    | nil => simp at hx
    | cons b l2 =>
      rw [List.zipWith_cons_cons, List.mem_cons] at hx
      rcases hx with rfl | hx
      · exact hg a b
      · exact ih l2 x hx

theorem gains_nonneg (closes : List ℚ) : ∀ x ∈ gains closes, 0 ≤ x := by
  cases closes with
  | nil => simp [gains]
  | cons c cs =>
    intro x hx
    rw [gains, List.mem_cons] at hx
    rcases hx with rfl | hx
    · exact le_refl 0
    · refine zipWith_diff_nonneg _ (fun p q => ?_) _ _ x hx
      dsimp only
      split
      · linarith
      · exact le_refl 0

theorem losses_nonneg (closes : List ℚ) : ∀ x ∈ losses closes, 0 ≤ x := by
  cases closes with
  | nil => simp [losses]
  | cons c cs =>
    intro x hx
    rw [losses, List.mem_cons] at hx
    rcases hx with rfl | hx
    · exact le_refl 0
    · refine zipWith_diff_nonneg _ (fun p q => ?_) _ _ x hx
      dsimp only
      split
      · linarith
      · exact le_refl 0

theorem rollingMean_last_nonneg {w : ℕ} {xs : List ℚ} (hxs : ∀ x ∈ xs, 0 ≤ x)
    {v : ℚ} (h : (rollingMean w xs).getLast? = some (some v)) : 0 ≤ v := by
  have hne : xs ≠ [] := by
    rintro rfl
    simp [rollingMean] at h
  rw [rollingMean_getLast w xs hne] at h
  by_cases hw : w ≤ xs.length
  · rw [if_pos hw] at h
    have hv : ((xs.drop (xs.length - w)).take w).sum / (w : ℚ) = v := by
      simpa using h
    rw [← hv]
    apply div_nonneg
    · apply List.sum_nonneg
      intro x hx
      exact hxs x (List.mem_of_mem_drop (List.mem_of_mem_take hx))
    · exact Nat.cast_nonneg w
  · rw [if_neg hw] at h
    simp at h

theorem rsiSeries_length (closes : List ℚ) :
    (rsiSeries closes).length = closes.length := by
  simp [rsiSeries, rollingMean_length, gains_length, losses_length]

theorem rsiSeries_getLast (closes : List ℚ) {g? l? : Option ℚ}
    (hg : avgGainLast closes = some g?) (hl : avgLossLast closes = some l?) :
    (rsiSeries closes).getLast? = some (rsiPoint g? l?) := by
  unfold avgGainLast at hg
  unfold avgLossLast at hl
  exact zipWith_getLast?_some rsiPoint _ _
    (by simp [rollingMean_length, gains_length, losses_length]) g? l? hg hl

theorem optLtOptB_none (a : Option ℚ) : optLtOptB a none = false := by
  cases a <;> rfl

/-- **C1**: for every input series with fewer than 200 bars the rolling
200-bar mean is undefined at the last point, the float comparison with
NaN is false, and `detect_death_cross` silently returns the `good`
tier with the bullish explanation: insufficient history is NOT
surfaced as a distinct condition. This supports the code_bug verdict
on the claim. -/
theorem detect_death_cross_short_series_defaults_good (closes : List ℚ)
    (hne : closes ≠ []) (hlen : closes.length < 200) :
    detect_death_cross closes =
      some (false, Tier.good,
        "No Death Cross detected (50-day MA above 200-day MA), indicating a bullish trend.") := by
  unfold detect_death_cross
  rw [rollingMean_getLast 50 closes hne, rollingMean_getLast 200 closes hne,
      if_neg (by omega : ¬ 200 ≤ closes.length)]
  simp [optLtOptB_none]

/-- Witness: a one-bar series is classified `good` by the death-cross
evaluation. -/
theorem detect_death_cross_short_series_defaults_good_witness :
    detect_death_cross [1] =
      some (false, Tier.good,
        "No Death Cross detected (50-day MA above 200-day MA), indicating a bullish trend.") :=
  detect_death_cross_short_series_defaults_good [1] (by decide) (by decide)

/-- **C2**: when every raw bar has a missing cell, `clean_stock_data`
returns the empty series; it is a total function with no error path, so
no `EmptySeries` failure occurs. This supports the code_bug verdict on
the claim. -/
theorem clean_stock_data_all_missing_returns_empty (raw : List RawBar)
    (h : ∀ r ∈ raw, toBar r = none) : clean_stock_data raw = [] := by
  unfold clean_stock_data
  rw [List.filterMap_eq_nil_iff.mpr h]
  rfl

/-- Witness: a single raw bar with a missing close cleans to the empty
series, with no error. -/
theorem clean_stock_data_all_missing_returns_empty_witness :
    clean_stock_data
      [{ ts := 0, open_ := some 1, high := some 1, low := some 1,
         close := none, volume := some 1 }] = [] :=
  clean_stock_data_all_missing_returns_empty
    [{ ts := 0, open_ := some 1, high := some 1, low := some 1,
       close := none, volume := some 1 }] (by decide)

theorem rollingMean_ne_nil {w : ℕ} {xs : List ℚ} (h : xs ≠ []) :
    rollingMean w xs ≠ [] := by
  intro h0
  apply h
  have hlen := rollingMean_length w xs
  rw [h0] at hlen
  exact List.length_eq_zero.mp hlen.symm

theorem gains_ne_nil {closes : List ℚ} (h : closes ≠ []) : gains closes ≠ [] := by
  intro h0
  apply h
  have hlen := gains_length closes
  rw [h0] at hlen
  exact List.length_eq_zero.mp hlen.symm

theorem losses_ne_nil {closes : List ℚ} (h : closes ≠ []) : losses closes ≠ [] := by
  intro h0
  apply h
  have hlen := losses_length closes
  rw [h0] at hlen
  exact List.length_eq_zero.mp hlen.symm

theorem rsiSeries_ne_nil {closes : List ℚ} (h : closes ≠ []) : rsiSeries closes ≠ [] := by
  intro h0
  apply h
  have hlen := rsiSeries_length closes
  rw [h0] at hlen
  exact List.length_eq_zero.mp hlen.symm

/-- **C4**: whenever the RSI value at the last point is defined, it lies
in `[0, 100]`; and in the degenerate division case (`avg_loss = 0`,
`avg_gain > 0`, so `rs = inf`) it equals exactly `100`. -/
theorem rsi_last_value_in_range (closes : List ℚ) (v : ℚ)
    (h : (rsiSeries closes).getLast? = some (some v)) :
    (0 ≤ v ∧ v ≤ 100) ∧
    (∀ g, avgGainLast closes = some (some g) → 0 < g →
      avgLossLast closes = some (some 0) → v = 100) := by
  have hne : closes ≠ [] := by
    rintro rfl
    simp [rsiSeries, rollingMean, gains, losses] at h
  obtain ⟨g?, hg⟩ := exists_getLast?_of_ne_nil (rollingMean_ne_nil (gains_ne_nil hne))
  obtain ⟨l?, hl⟩ := exists_getLast?_of_ne_nil (rollingMean_ne_nil (losses_ne_nil hne))
  have hlast := rsiSeries_getLast closes hg hl
  have heq : rsiPoint g? l? = some v := Option.some.inj (hlast.symm.trans h)
  rcases g? with _ | g
  · simp [rsiPoint] at heq
  rcases l? with _ | l
  · simp [rsiPoint] at heq
  have hg0 : 0 ≤ g := rollingMean_last_nonneg (gains_nonneg closes) hg
  have hl0 : 0 ≤ l := rollingMean_last_nonneg (losses_nonneg closes) hl
  constructor
  · by_cases hlz : l = 0
    · subst hlz
      by_cases hgz : g = 0
      · subst hgz
        simp [rsiPoint] at heq
      · have hv : (100 : ℚ) = v := by simpa [rsiPoint, hgz] using heq
        rw [← hv]
        norm_num
    · have hval : 100 - 100 / (1 + g / l) = v := by simpa [rsiPoint, hlz] using heq
      have hrs : 0 ≤ g / l := div_nonneg hg0 hl0
      have h1 : (1 : ℚ) ≤ 1 + g / l := by linarith
      have hple : 100 / (1 + g / l) ≤ 100 := div_le_self (by norm_num) h1
      have hppos : 0 < 100 / (1 + g / l) := div_pos (by norm_num) (by linarith)
      constructor <;> linarith
  · intro g2 hg2 hg2pos hl2
    unfold avgGainLast at hg2
    unfold avgLossLast at hl2
    have hgg : g = g2 := by
      have := hg.symm.trans hg2
      simpa using this
    have hll : l = 0 := by
      have := hl.symm.trans hl2
      simpa using this
    subst hgg
    subst hll
    have hgz : g ≠ 0 := ne_of_gt hg2pos
    have : some (100 : ℚ) = some v := by simpa [rsiPoint, hgz] using heq
    exact (Option.some.inj this).symm

/-- Witness for C4: fourteen alternating closes give a defined RSI, and
the bounds and the degenerate-case rule hold there. -/
theorem rsi_last_value_in_range_witness :
    ((0 : ℚ) ≤ 700 / 13 ∧ (700 / 13 : ℚ) ≤ 100) ∧
    (∀ g, avgGainLast [1, 2, 1, 2, 1, 2, 1, 2, 1, 2, 1, 2, 1, 2] = some (some g) → 0 < g →
      avgLossLast [1, 2, 1, 2, 1, 2, 1, 2, 1, 2, 1, 2, 1, 2] = some (some 0) →
      (700 / 13 : ℚ) = 100) :=
  rsi_last_value_in_range [1, 2, 1, 2, 1, 2, 1, 2, 1, 2, 1, 2, 1, 2] (700 / 13)
    (by norm_num [rsiSeries, rollingMean, gains, losses, rsiPoint, List.range_succ])

theorem optGtB_imp_not_ltB {v : Option ℚ} (h : optGtB v 70 = true) :
    optLtB v 30 = false := by
  cases v with
  | none => simp [optGtB] at h
  | some x =>
    simp only [optGtB, decide_eq_true_eq] at h
    simp only [optLtB, decide_eq_false_iff_not, not_lt]
    linarith

/-- **C5**: on any nonempty series the RSI classifier, applied to the
last point of the RSI series, returns `bad` iff that value compares
`> 70`, `good` iff it compares `< 30`, and `warning` otherwise, with
the matching explanation strings (a NaN value fails both comparisons,
matching the float semantics of the source). -/
theorem rsi_classifier_thresholds (closes : List ℚ) (h : closes ≠ []) :
    ∃ v t e, calculate_rsi closes = some (v, t, e) ∧
      (t = Tier.bad ↔ optGtB v 70 = true) ∧
      (t = Tier.good ↔ optLtB v 30 = true) ∧
      (t = Tier.warning ↔ (optGtB v 70 = false ∧ optLtB v 30 = false)) ∧
      (t = Tier.bad → e = "RSI is overbought (>70), suggesting a potential sell signal.") ∧
      (t = Tier.good → e = "RSI is oversold (<30), suggesting a potential buy signal.") ∧
      (t = Tier.warning → e = "RSI is in neutral territory (30-70).") := by
  obtain ⟨v, hv⟩ := exists_getLast?_of_ne_nil (rsiSeries_ne_nil h)
  unfold calculate_rsi
  rw [hv]
  unfold classifyRsi
  dsimp only
  by_cases h70 : optGtB v 70 = true
  · rw [if_pos h70]
    refine ⟨v, Tier.bad, _, rfl, ?_, ?_, ?_, fun _ => rfl, ?_, ?_⟩
    · simp [h70]
    · simp [optGtB_imp_not_ltB h70]
    · simp [h70]
    · intro hh; exact absurd hh (by decide)
    · intro hh; exact absurd hh (by decide)
  · have h70f : optGtB v 70 = false := by
      revert h70; cases optGtB v 70 <;> simp
    rw [if_neg h70]
    by_cases h30 : optLtB v 30 = true
    · rw [if_pos h30]
      refine ⟨v, Tier.good, _, rfl, ?_, ?_, ?_, ?_, fun _ => rfl, ?_⟩
      · simp [h70f]
      · simp [h30]
      · simp [h30]
      · intro hh; exact absurd hh (by decide)
      · intro hh; exact absurd hh (by decide)
    · have h30f : optLtB v 30 = false := by
        revert h30; cases optLtB v 30 <;> simp
      rw [if_neg h30]
      refine ⟨v, Tier.warning, _, rfl, ?_, ?_, ?_, ?_, ?_, fun _ => rfl⟩
      · simp [h70f]
      · simp [h30f]
      · simp [h70f, h30f]
      · intro hh; exact absurd hh (by decide)
      · intro hh; exact absurd hh (by decide)

/-- Witness for C5 at the one-bar series (NaN RSI, `warning` tier). -/
theorem rsi_classifier_thresholds_witness :
    ∃ v t e, calculate_rsi [1] = some (v, t, e) ∧
      (t = Tier.bad ↔ optGtB v 70 = true) ∧
      (t = Tier.good ↔ optLtB v 30 = true) ∧
      (t = Tier.warning ↔ (optGtB v 70 = false ∧ optLtB v 30 = false)) ∧
      (t = Tier.bad → e = "RSI is overbought (>70), suggesting a potential sell signal.") ∧
      (t = Tier.good → e = "RSI is oversold (<30), suggesting a potential buy signal.") ∧
      (t = Tier.warning → e = "RSI is in neutral territory (30-70).") :=
  rsi_classifier_thresholds [1] (by decide)

/-- **C10 (amended)**: on a nonempty series an undefined last RSI value
is classified `warning` with the neutral explanation; the last RSI
value is undefined whenever fewer than 14 bars exist (14 bars already
suffice for a defined value, because the leading NaN of `diff()` is
coerced to 0 by the `where` clauses), and also whenever both trailing
averages are 0 (`rs = 0/0`). -/
theorem rsi_undefined_yields_warning (closes : List ℚ) (h : closes ≠ []) :
    ((rsiSeries closes).getLast? = some none →
      calculate_rsi closes =
        some (none, Tier.warning, "RSI is in neutral territory (30-70).")) ∧
    (closes.length < 14 → (rsiSeries closes).getLast? = some none) ∧
    (avgGainLast closes = some (some 0) → avgLossLast closes = some (some 0) →
      (rsiSeries closes).getLast? = some none) := by
  refine ⟨?_, ?_, ?_⟩
  · intro hu
    unfold calculate_rsi
    rw [hu]
    rfl
  · intro hlen
    have hg : (rollingMean 14 (gains closes)).getLast? = some none := by
      rw [rollingMean_getLast 14 (gains closes) (gains_ne_nil h),
          if_neg (by rw [gains_length]; omega)]
    have hl : (rollingMean 14 (losses closes)).getLast? = some none := by
      rw [rollingMean_getLast 14 (losses closes) (losses_ne_nil h),
          if_neg (by rw [losses_length]; omega)]
    have := rsiSeries_getLast closes hg hl
    simpa [rsiPoint] using this
  · intro hg hl
    unfold avgGainLast at hg
    unfold avgLossLast at hl
    have := rsiSeries_getLast closes hg hl
    simpa [rsiPoint] using this

/-- Witness for C10 at the one-bar series. -/
theorem rsi_undefined_yields_warning_witness :
    (((rsiSeries [1]).getLast? = some none →
      calculate_rsi [1] =
        some (none, Tier.warning, "RSI is in neutral territory (30-70).")) ∧
    (([1] : List ℚ).length < 14 → (rsiSeries [1]).getLast? = some none) ∧
    (avgGainLast [1] = some (some 0) → avgLossLast [1] = some (some 0) →
      (rsiSeries [1]).getLast? = some none)) :=
  rsi_undefined_yields_warning [1] (by decide)

/-- Counterexample for C10 as stated: fourteen strictly increasing bars
are fewer than fifteen, yet the RSI at the last point is defined (the
degenerate `avg_loss = 0` case gives exactly 100) and the classifier
returns `bad`, not `warning`. -/
theorem rsi_under_fifteen_bars_can_be_defined :
    ([1, 2, 3, 4, 5, 6, 7, 8, 9, 10, 11, 12, 13, 14] : List ℚ).length < 15 ∧
    calculate_rsi [1, 2, 3, 4, 5, 6, 7, 8, 9, 10, 11, 12, 13, 14] =
      some (some 100, Tier.bad,
        "RSI is overbought (>70), suggesting a potential sell signal.") := by
  constructor
  · decide
  · norm_num [calculate_rsi, rsiSeries, rollingMean, gains, losses, rsiPoint, classifyRsi,
      optGtB, optLtB, List.range_succ]

theorem emaAux_length (a : ℚ) (y : ℚ) (xs : List ℚ) :
    (emaAux a y xs).length = xs.length := by
  induction xs generalizing y with
  | nil => rfl
  | cons x xs ih => simp [emaAux, ih]

theorem ema_length (a : ℚ) (xs : List ℚ) : (ema a xs).length = xs.length := by
  cases xs with
  | nil => rfl
  | cons x xs => simp [ema, emaAux_length]

theorem macdLine_length (closes : List ℚ) : (macdLine closes).length = closes.length := by
  simp [macdLine, ema_length]

theorem signalLine_length (closes : List ℚ) :
    (signalLine closes).length = closes.length := by
  simp [signalLine, ema_length, macdLine_length]

theorem macdLine_ne_nil {closes : List ℚ} (h : closes ≠ []) : macdLine closes ≠ [] := by
  intro h0
  apply h
  have hlen := macdLine_length closes
  rw [h0] at hlen
  exact List.length_eq_zero.mp hlen.symm

theorem signalLine_ne_nil {closes : List ℚ} (h : closes ≠ []) :
    signalLine closes ≠ [] := by
  intro h0
  apply h
  have hlen := signalLine_length closes
  rw [h0] at hlen
  exact List.length_eq_zero.mp hlen.symm

/-- **C6**: on any nonempty series, the sign of `MACD − Signal` at the
last point determines the classifier tier exactly: positive iff `good`,
negative iff `bad`, zero iff `warning`. -/
theorem macd_sign_matches_tier (closes : List ℚ) (h : closes ≠ []) :
    ∃ m t e, calculate_macd closes = some (m, t, e) ∧
      (0 < m ↔ t = Tier.good) ∧ (m < 0 ↔ t = Tier.bad) ∧ (m = 0 ↔ t = Tier.warning) := by
  obtain ⟨m0, hm⟩ := exists_getLast?_of_ne_nil (macdLine_ne_nil h)
  obtain ⟨s0, hs⟩ := exists_getLast?_of_ne_nil (signalLine_ne_nil h)
  unfold calculate_macd
  rw [hm, hs]
  dsimp only
  unfold classifyMacd
  rcases lt_trichotomy (m0 - s0) 0 with hlt | heq | hgt
  · rw [if_neg (by linarith : ¬ (0 : ℚ) < m0 - s0), if_pos hlt]
    refine ⟨m0 - s0, Tier.bad, _, rfl, ?_, ?_, ?_⟩
    · exact iff_of_false (by linarith) (by decide)
    · exact iff_of_true hlt rfl
    · exact iff_of_false (by linarith) (by decide)
  · rw [if_neg (by linarith : ¬ (0 : ℚ) < m0 - s0), if_neg (by linarith : ¬ m0 - s0 < 0)]
    refine ⟨m0 - s0, Tier.warning, _, rfl, ?_, ?_, ?_⟩
    · exact iff_of_false (by linarith) (by decide)
    · exact iff_of_false (by linarith) (by decide)
    · exact iff_of_true heq rfl
  · rw [if_pos hgt]
    refine ⟨m0 - s0, Tier.good, _, rfl, ?_, ?_, ?_⟩
    · exact iff_of_true hgt rfl
    · exact iff_of_false (by linarith) (by decide)
    · exact iff_of_false (by linarith) (by decide)

/-- Witness for C6 at a two-bar rising series. -/
theorem macd_sign_matches_tier_witness :
    ∃ m t e, calculate_macd [1, 2] = some (m, t, e) ∧
      (0 < m ↔ t = Tier.good) ∧ (m < 0 ↔ t = Tier.bad) ∧ (m = 0 ↔ t = Tier.warning) :=
  macd_sign_matches_tier [1, 2] (by decide)

theorem sortedQ_sorted (xs : List ℚ) :
    List.Sorted (fun a b => a ≤ b) (sortedQ xs) :=
  List.sorted_insertionSort (fun a b => a ≤ b) xs

/-- **C3**: the support/resistance detector returns exactly the slices
`sorted(candidates)[-3:]` and `sorted(candidates)[:3]` of the unique
candidate extrema, and both returned sequences have at most 3 elements
in ascending order. -/
theorem support_resistance_selection_rule (df : DataFrame) :
    (calculate_support_resistance df 20).1.support =
      (sortedQ (uniqueL (candidateVals (df.rows.map (fun b => b.low))
          (rollingMinCentered 20 (df.rows.map (fun b => b.low)))))).drop
        ((sortedQ (uniqueL (candidateVals (df.rows.map (fun b => b.low))
          (rollingMinCentered 20 (df.rows.map (fun b => b.low)))))).length - 3) ∧
    (calculate_support_resistance df 20).1.resistance =
      (sortedQ (uniqueL (candidateVals (df.rows.map (fun b => b.high))
          (rollingMaxCentered 20 (df.rows.map (fun b => b.high)))))).take 3 ∧
    (calculate_support_resistance df 20).1.support.length ≤ 3 ∧
    (calculate_support_resistance df 20).1.resistance.length ≤ 3 ∧
    List.Sorted (fun a b => a ≤ b) (calculate_support_resistance df 20).1.support ∧
    List.Sorted (fun a b => a ≤ b) (calculate_support_resistance df 20).1.resistance := by
  refine ⟨rfl, rfl, ?_, ?_, ?_, ?_⟩
  · show ((sortedQ (uniqueL (candidateVals (df.rows.map (fun b => b.low))
        (rollingMinCentered 20 (df.rows.map (fun b => b.low)))))).drop
          ((sortedQ (uniqueL (candidateVals (df.rows.map (fun b => b.low))
            (rollingMinCentered 20 (df.rows.map (fun b => b.low)))))).length - 3)).length ≤ 3
    rw [List.length_drop]
    omega
  · show ((sortedQ (uniqueL (candidateVals (df.rows.map (fun b => b.high))
        (rollingMaxCentered 20 (df.rows.map (fun b => b.high)))))).take 3).length ≤ 3
    simp [List.length_take]
  · exact List.Pairwise.sublist (List.drop_sublist _ _) (sortedQ_sorted _)
  · exact List.Pairwise.sublist (List.take_sublist _ _) (sortedQ_sorted _)

/-- **C9 (amended)**: the RSI, MACD, death-cross, outlier and resample
computations read their input without returning a modified frame, but
`calculate_support_resistance` hands back the caller's frame with the
`min` and `max` columns appended, and `prepare_data_for_analysis` with
a `Returns` column appended; the typed rows themselves are unchanged. -/
theorem indicator_frame_effects (df : DataFrame) (w : ℕ) :
    ((calculate_support_resistance df w).2.rows = df.rows ∧
      (calculate_support_resistance df w).2.extra =
        df.extra ++
          [("min", rollingMinCentered w (df.rows.map (fun b => b.low))),
           ("max", rollingMaxCentered w (df.rows.map (fun b => b.high)))]) ∧
    (df.rows ≠ [] → ∃ st, prepare_data_for_analysis df =
      some ({ rows := df.rows,
              extra := df.extra ++
                [("Returns", pct_change (df.rows.map (fun b => b.close)))] }, st)) := by
  refine ⟨⟨rfl, rfl⟩, ?_⟩
  intro hrows
  have hmap : df.rows.map (fun b => b.close) ≠ [] := by
    intro h0
    rw [List.map_eq_nil_iff] at h0
    exact hrows h0
  obtain ⟨c, hc⟩ := exists_getLast?_of_ne_nil hmap
  refine ⟨{ mean_return := meanColO (pct_change (df.rows.map (fun b => b.close)))
            var_return := sampleVarO (pct_change (df.rows.map (fun b => b.close)))
            min_price := (df.rows.map (fun b => b.low)).min?
            max_price := (df.rows.map (fun b => b.high)).max?
            current_price := c
            volume_avg := meanCol (df.rows.map (fun b => b.volume)) }, ?_⟩
  unfold prepare_data_for_analysis
  rw [hc]

/-- A concrete one-row frame used to exhibit the frame effects of C9. -/
def exampleFrame : DataFrame :=
  { rows := [{ ts := 0, open_ := 1, high := 2, low := 0, close := 1, volume := 5 }],
    extra := [] }

/-- Witness for C9 at a concrete one-row frame. -/
theorem indicator_frame_effects_witness :
    ((calculate_support_resistance exampleFrame 20).2.rows = exampleFrame.rows ∧
      (calculate_support_resistance exampleFrame 20).2.extra =
        exampleFrame.extra ++
          [("min", rollingMinCentered 20 (exampleFrame.rows.map (fun b => b.low))),
           ("max", rollingMaxCentered 20 (exampleFrame.rows.map (fun b => b.high)))]) ∧
    (∃ st, prepare_data_for_analysis exampleFrame =
      some ({ rows := exampleFrame.rows,
              extra := exampleFrame.extra ++
                [("Returns", pct_change (exampleFrame.rows.map (fun b => b.close)))] },
            st)) :=
  ⟨(indicator_frame_effects exampleFrame 20).1,
   (indicator_frame_effects exampleFrame 20).2 (by decide)⟩

/-- Counterexample for C9 as stated: on a concrete one-row frame the
support/resistance computation does NOT leave the caller's frame
unchanged (it appends the `min` and `max` columns), and neither does
`prepare_data_for_analysis` (it appends a `Returns` column). -/
theorem support_resistance_mutates_frame :
    (calculate_support_resistance exampleFrame 20).2 ≠ exampleFrame ∧
    (prepare_data_for_analysis exampleFrame).map Prod.fst ≠ some exampleFrame := by
  constructor
  · intro hEq
    have hlen := congrArg (fun d => d.extra.length) hEq
    simp [calculate_support_resistance, exampleFrame] at hlen
  · intro hEq
    have h1 : (prepare_data_for_analysis exampleFrame).map Prod.fst =
        some { rows := exampleFrame.rows,
               extra := [("Returns",
                 pct_change (exampleFrame.rows.map (fun b => b.close)))] } := rfl
    rw [h1] at hEq
    have hlen := congrArg (Option.map (fun d => d.extra.length)) hEq
    simp [exampleFrame] at hlen

/-- **C7**: for a non-negative threshold, outlier detection returns
exactly the timestamps of the rows whose absolute z-score exceeds the
threshold (stated exactly on squares: `z > t` iff
`(x - mean)^2 > t^2 * var` when the variance is positive), and when the
standard deviation is 0 the result is empty (no division error: the
NaN z-scores fail every comparison). -/
theorem detect_outliers_zscore_characterization (df : DataFrame) (col : Bar → ℚ)
    (t : ℚ) (ht : 0 ≤ t) :
    (sampleVar (df.rows.map col) = some 0 → detect_outliers df col t = []) ∧
    (∀ i, i ∈ detect_outliers df col t ↔
      ∃ r ∈ df.rows, r.ts = i ∧ ∃ u, sampleVar (df.rows.map col) = some u ∧ 0 < u ∧
        t ^ 2 * u < (col r - meanQ (df.rows.map col)) ^ 2) := by
  constructor
  · intro h0
    unfold detect_outliers
    dsimp only
    rw [h0]
    have hfil : df.rows.filter
        (fun r => zExceeds (meanQ (df.rows.map col)) 0 t (col r)) = [] :=
      List.filter_eq_nil_iff.mpr (fun r hr => by simp [zExceeds])
    dsimp only
    rw [hfil]
    rfl
  · intro i
    unfold detect_outliers
    dsimp only
    cases hsv : sampleVar (df.rows.map col) with
    | none =>
      simp only [List.not_mem_nil, false_iff]
      rintro ⟨r, hr, hts, u, hu, _⟩
      exact Option.noConfusion hu
    | some v =>
      rw [List.mem_map]
      constructor
      · rintro ⟨r, hrmem, rfl⟩
        rw [List.mem_filter] at hrmem
        obtain ⟨hr, hz⟩ := hrmem
        unfold zExceeds at hz
        simp only [Bool.and_eq_true, Bool.or_eq_true, decide_eq_true_eq] at hz
        obtain ⟨hv, hcase⟩ := hz
        rcases hcase with hneg | hineq
        · linarith
        · exact ⟨r, hr, rfl, v, rfl, hv, hineq⟩
      · rintro ⟨r, hr, hts, u, hu, hupos, hineq⟩
        injection hu with hu
        subst hu
        refine ⟨r, ?_, hts⟩
        rw [List.mem_filter]
        refine ⟨hr, ?_⟩
        unfold zExceeds
        simp only [Bool.and_eq_true, Bool.or_eq_true, decide_eq_true_eq]
        exact ⟨hupos, Or.inr hineq⟩

/-- Witness for C7 at a three-row frame with one far-off close. -/
theorem detect_outliers_zscore_characterization_witness :
    (sampleVar ((DataFrame.mk
        [{ ts := 0, open_ := 1, high := 1, low := 1, close := 0, volume := 1 },
         { ts := 1, open_ := 1, high := 1, low := 1, close := 0, volume := 1 },
         { ts := 2, open_ := 1, high := 1, low := 1, close := 9, volume := 1 }] []).rows.map
          (fun b => b.close)) = some 0 →
      detect_outliers (DataFrame.mk
        [{ ts := 0, open_ := 1, high := 1, low := 1, close := 0, volume := 1 },
         { ts := 1, open_ := 1, high := 1, low := 1, close := 0, volume := 1 },
         { ts := 2, open_ := 1, high := 1, low := 1, close := 9, volume := 1 }] [])
        (fun b => b.close) 1 = []) ∧
    (∀ i, i ∈ detect_outliers (DataFrame.mk
        [{ ts := 0, open_ := 1, high := 1, low := 1, close := 0, volume := 1 },
         { ts := 1, open_ := 1, high := 1, low := 1, close := 0, volume := 1 },
         { ts := 2, open_ := 1, high := 1, low := 1, close := 9, volume := 1 }] [])
        (fun b => b.close) 1 ↔
      ∃ r ∈ (DataFrame.mk
        [{ ts := 0, open_ := 1, high := 1, low := 1, close := 0, volume := 1 },
         { ts := 1, open_ := 1, high := 1, low := 1, close := 0, volume := 1 },
         { ts := 2, open_ := 1, high := 1, low := 1, close := 9, volume := 1 }] []).rows,
        r.ts = i ∧ ∃ u, sampleVar ((DataFrame.mk
          [{ ts := 0, open_ := 1, high := 1, low := 1, close := 0, volume := 1 },
           { ts := 1, open_ := 1, high := 1, low := 1, close := 0, volume := 1 },
           { ts := 2, open_ := 1, high := 1, low := 1, close := 9, volume := 1 }] []).rows.map
            (fun b => b.close)) = some u ∧ 0 < u ∧
          (1 : ℚ) ^ 2 * u < (r.close - meanQ ((DataFrame.mk
            [{ ts := 0, open_ := 1, high := 1, low := 1, close := 0, volume := 1 },
             { ts := 1, open_ := 1, high := 1, low := 1, close := 0, volume := 1 },
             { ts := 2, open_ := 1, high := 1, low := 1, close := 9, volume := 1 }] []).rows.map
              (fun b => b.close))) ^ 2) :=
  detect_outliers_zscore_characterization
    (DataFrame.mk
      [{ ts := 0, open_ := 1, high := 1, low := 1, close := 0, volume := 1 },
       { ts := 1, open_ := 1, high := 1, low := 1, close := 0, volume := 1 },
       { ts := 2, open_ := 1, high := 1, low := 1, close := 9, volume := 1 }] [])
    (fun b => b.close) 1 (by norm_num)

theorem foldl_max_mem (x : ℚ) (l : List ℚ) : l.foldl max x ∈ x :: l := by
  induction l generalizing x with
  | nil => simp
  | cons y l ih =>
    rw [List.foldl_cons]
    have hmem := ih (max x y)
    rw [List.mem_cons] at hmem
    rcases hmem with hm | hm
    · rcases max_choice x y with hc | hc
      · rw [List.mem_cons]
        exact Or.inl (hm.trans hc)
      · rw [List.mem_cons, List.mem_cons]
        exact Or.inr (Or.inl (hm.trans hc))
    · rw [List.mem_cons, List.mem_cons]
      exact Or.inr (Or.inr hm)

theorem le_foldl_max (x : ℚ) (l : List ℚ) : ∀ y ∈ x :: l, y ≤ l.foldl max x := by
  induction l generalizing x with
  | nil =>
    intro y hy
    rw [List.mem_singleton] at hy
    exact le_of_eq hy
  | cons z l ih =>
    intro y hy
    rw [List.foldl_cons]
    rw [List.mem_cons, List.mem_cons] at hy
    rcases hy with rfl | rfl | hy
    · exact le_trans (le_max_left y z) (ih (max y z) _ (List.mem_cons_self _ _))
    · exact le_trans (le_max_right x y) (ih (max x y) _ (List.mem_cons_self _ _))
    · exact ih (max x z) y (List.mem_cons_of_mem _ hy)

theorem foldl_min_mem (x : ℚ) (l : List ℚ) : l.foldl min x ∈ x :: l := by
  induction l generalizing x with
  | nil => simp
  | cons y l ih =>
    rw [List.foldl_cons]
    have hmem := ih (min x y)
    rw [List.mem_cons] at hmem
    rcases hmem with hm | hm
    · rcases min_choice x y with hc | hc
      · rw [List.mem_cons]
        exact Or.inl (hm.trans hc)
      · rw [List.mem_cons, List.mem_cons]
        exact Or.inr (Or.inl (hm.trans hc))
    · rw [List.mem_cons, List.mem_cons]
      exact Or.inr (Or.inr hm)

theorem foldl_min_le (x : ℚ) (l : List ℚ) : ∀ y ∈ x :: l, l.foldl min x ≤ y := by
  induction l generalizing x with
  | nil =>
    intro y hy
    rw [List.mem_singleton] at hy
    exact le_of_eq hy.symm
  | cons z l ih =>
    intro y hy
    rw [List.foldl_cons]
    rw [List.mem_cons, List.mem_cons] at hy
    rcases hy with rfl | rfl | hy
    · exact le_trans (ih (min y z) _ (List.mem_cons_self _ _)) (min_le_left y z)
    · exact le_trans (ih (min x y) _ (List.mem_cons_self _ _)) (min_le_right x y)
    · exact ih (min x z) y (List.mem_cons_of_mem _ hy)

theorem getLast_cons_close (r0 : RBar) (rs : List RBar) (h : r0 :: rs ≠ []) :
    ((r0 :: rs).getLast h).close = (rs.map (fun r => r.close)).getLastD r0.close := by
  induction rs generalizing r0 with
  | nil => rfl
  | cons r1 rs ih =>
    rw [List.getLast_cons_cons, List.map_cons, List.getLastD_cons]
    exact ih r1 (by simp)

/-- **C8**: every occupied calendar bucket appears in the resampled
output with `open = first`, `close = last daily close of the bucket`,
`volume = sum of the constituent volumes`, `returns = sum` (skipping
the NaN first return), and `high`/`low` the attained maximum/minimum of
the bucket. -/
theorem resample_ohlcv_aggregation (bucket : ℕ → ℕ) (rows : List RBar) (k : ℕ)
    (h : groupOf bucket rows k ≠ []) :
    ∃ a, (k, a) ∈ resample_data bucket rows ∧
      a.open_ = ((groupOf bucket rows k).head h).open_ ∧
      a.close = ((groupOf bucket rows k).getLast h).close ∧
      a.volume = ((groupOf bucket rows k).map (fun r => r.volume)).sum ∧
      a.returns = ((groupOf bucket rows k).filterMap (fun r => r.returns)).sum ∧
      (∀ r ∈ groupOf bucket rows k, r.high ≤ a.high) ∧
      a.high ∈ (groupOf bucket rows k).map (fun r => r.high) ∧
      (∀ r ∈ groupOf bucket rows k, a.low ≤ r.low) ∧
      a.low ∈ (groupOf bucket rows k).map (fun r => r.low) := by
  obtain ⟨r0, rs, hg⟩ : ∃ r0 rs, groupOf bucket rows k = r0 :: rs := by
    cases hgg : groupOf bucket rows k with
    | nil => exact absurd hgg h
    | cons a l => exact ⟨a, l, rfl⟩
  have hr0 : r0 ∈ rows ∧ bucket r0.ts = k := by
    have : r0 ∈ groupOf bucket rows k := by rw [hg]; exact List.mem_cons_self _ _
    unfold groupOf at this
    rw [List.mem_filter] at this
    exact ⟨this.1, by simpa using this.2⟩
  have hhead : (groupOf bucket rows k).head h = r0 := by
    have h1 := List.head?_eq_head h
    have h2 : (groupOf bucket rows k).head? = some r0 := by rw [hg]; rfl
    rw [h1] at h2
    exact Option.some.inj h2
  have hlastc : ((groupOf bucket rows k).getLast h).close =
      (rs.map (fun r => r.close)).getLastD r0.close := by
    have h1 := List.getLast?_eq_getLast (groupOf bucket rows k) h
    have h2 : (groupOf bucket rows k).getLast? = (r0 :: rs).getLast? := by rw [hg]
    rw [h1, List.getLast?_eq_getLast (r0 :: rs) (by simp)] at h2
    rw [Option.some.inj h2]
    exact getLast_cons_close r0 rs (by simp)
  refine ⟨aggGroup r0 rs, ?_, ?_, ?_, ?_, ?_, ?_, ?_, ?_, ?_⟩
  · unfold resample_data
    rw [List.mem_filterMap]
    refine ⟨k, ?_, ?_⟩
    · rw [mem_uniqueL, List.mem_map]
      exact ⟨r0, hr0.1, hr0.2⟩
    · rw [hg]
  · rw [hhead]
    rfl
  · rw [hlastc]
    rfl
  · rw [hg]
    simp [aggGroup]
  · rw [hg]
    rfl
  · rw [hg]
    intro r hr
    rw [List.mem_cons] at hr
    have hhigh : r.high ∈ r0.high :: rs.map (fun r => r.high) := by
      rcases hr with rfl | hr
      · exact List.mem_cons_self _ _
      · exact List.mem_cons_of_mem _ (List.mem_map_of_mem _ hr)
    exact le_foldl_max r0.high (rs.map (fun r => r.high)) r.high hhigh
  · rw [hg, List.map_cons]
    exact foldl_max_mem r0.high (rs.map (fun r => r.high))
  · rw [hg]
    intro r hr
    rw [List.mem_cons] at hr
    have hlow : r.low ∈ r0.low :: rs.map (fun r => r.low) := by
      rcases hr with rfl | hr
      · exact List.mem_cons_self _ _
      · exact List.mem_cons_of_mem _ (List.mem_map_of_mem _ hr)
    exact foldl_min_le r0.low (rs.map (fun r => r.low)) r.low hlow
  · rw [hg, List.map_cons]
    exact foldl_min_mem r0.low (rs.map (fun r => r.low))

/-- Witness for C8: a concrete series with two bars in week 0 and one
in week 1 under the bucket map `t / 7` has an aggregate for week 0. -/
theorem resample_ohlcv_aggregation_witness :
    ∃ a, (0, a) ∈ resample_data (fun t => t / 7)
        [{ ts := 0, open_ := 1, high := 2, low := 0, close := 1, volume := 5, returns := none },
         { ts := 3, open_ := 2, high := 3, low := 1, close := 4, volume := 7, returns := some 3 },
         { ts := 8, open_ := 9, high := 9, low := 9, close := 9, volume := 9, returns := some 1 }] :=
  (resample_ohlcv_aggregation (fun t => t / 7)
      [{ ts := 0, open_ := 1, high := 2, low := 0, close := 1, volume := 5, returns := none },
       { ts := 3, open_ := 2, high := 3, low := 1, close := 4, volume := 7, returns := some 3 },
       { ts := 8, open_ := 9, high := 9, low := 9, close := 9, volume := 9, returns := some 1 }]
      0 (by decide)).elim (fun a ha => ⟨a, ha.1⟩)
